import Mathlib

/-!
Verification of the Supreme sensorimotor driver (`src/sensorimotor.hpp`):
a shallow embedding of the frame codec, the control law engine and the
statistics tracker, with theorems checking the specification's claims.

Doubles are modelled as rationals; machine bytes as naturals (kept below
256 in intended use); the serial channel as an explicit byte queue with an
additive checksum accumulator.
-/

namespace supreme

/-- Source `pos`: positive part of a value. -/
def pos (value : ℚ) : ℚ := max 0 value

/-- Source `neg`: negative part of a value. -/
def neg (value : ℚ) : ℚ := min 0 value

/-- Source `posneg`: `p*pos(value) + n*neg(value)`. -/
def posneg (value p n : ℚ) : ℚ := p * pos value + n * neg value

/-- Source `uint_to_sc`: `(word - 512) / 512.0` (the `uint16_t`
argument is promoted to `int` before the subtraction). -/
def uint_to_sc (word : ℕ) : ℚ := ((word : ℚ) - 512) / 512

/-- Modelled from the spec: the generic clamp `clip(x, bound = 1.0)` from
`common/modules.h`, which is not among this repository's sources.  Per the
spec it restricts `x` to `[-bound, +bound]`.  The C++ default argument
`1.0` is passed explicitly as `clip x 1` at the call sites that use it. -/
def clip (x bound : ℚ) : ℚ := max (-bound) (min bound x)

/-- Reinterpretation of a 16-bit word as a signed 16-bit integer
(`static_cast<int16_t>` in the source). -/
def int16_of_uint16 (w : ℕ) : ℤ :=
  if w % 65536 < 32768 then (w % 65536 : ℤ) else (w % 65536 : ℤ) - 65536

/-- Source `voltage_scale`. -/
def voltage_scale : ℚ := 0.012713472

/-- Source `current_scale`. -/
def current_scale : ℚ := 0.003225806

/-- Source `sensorimotor::interface_data`. -/
structure interface_data where
  output_voltage  : ℚ
  position        : ℚ
  current         : ℚ
  voltage_backemf : ℚ
  voltage_supply  : ℚ
  temperature     : ℚ
deriving DecidableEq

/-- The member initializers of `interface_data` (all fields `0.0`). -/
def interface_data.init : interface_data := ⟨0, 0, 0, 0, 0, 0⟩

/-- Source `sensorimotor::Statistics_t`. -/
structure Statistics_t where
  errors           : ℕ
  timeouts         : ℕ
  response_time_us : ℕ
  avg_resp_time_us : ℚ
  max_resp_time_us : ℕ
  faulted          : Bool
deriving DecidableEq

/-- The member initializers of `Statistics_t`. -/
def Statistics_t.init : Statistics_t := ⟨0, 0, 0, 0, 0, false⟩

/-- Source `Statistics_t::update`. -/
def Statistics_t.update (s : Statistics_t) (time_us : ℕ) (timeout invalid : Bool) :
    Statistics_t where
  errors           := if invalid then s.errors + 1 else s.errors
  timeouts         := if timeout then s.timeouts + 1 else s.timeouts
  response_time_us := time_us
  avg_resp_time_us := 0.99 * s.avg_resp_time_us + 0.01 * (time_us : ℚ)
  max_resp_time_us := max s.max_resp_time_us time_us
  faulted          := timeout || invalid

/-- Source `sensorimotor::command_state_t`. -/
inductive command_state_t where
  | sync0
  | sync1
  | processing
  | completed
  | invalid
deriving DecidableEq

/-- Source `sensorimotor::Controller_t`. -/
inductive Controller_t where
  | none
  | voltage
  | position
  | csl
deriving DecidableEq

/-- Modelled from the spec: the communication channel (the external
`communication_interface`, not among this repository's sources), reduced to
what the parser observes — the readable inbound byte queue and the checksum
accumulator.  Per the spec, the accumulator covers the consumed bytes after
the sync pair (it is reset on the sync0 → sync1 transition), the checksum
is simple additive, and a frame's trailing checksum byte must make the
accumulated sum vanish mod 256. -/
structure communication_model where
  queue : List ℕ
  chk   : ℕ
deriving DecidableEq

/-- The `sensorimotor` class state from the source. -/
structure sensorimotor where
  motor_id        : ℕ
  com             : communication_model
  do_request      : Bool
  is_responding   : Bool
  direction       : ℤ
  data            : interface_data
  err_int         : ℚ
  z               : ℚ
  target_position : ℚ
  target_voltage  : ℚ
  target_csl_mode : ℚ
  target_csl_fb   : ℚ
  limit_lo        : ℚ
  limit_hi        : ℚ
  Kp              : ℚ
  phi_disable     : ℚ
  syncstate       : command_state_t
  statistics      : Statistics_t
  controller      : Controller_t
deriving DecidableEq

/-- The source constructor `sensorimotor(id, com)` together with the member
initializers, over an idle channel. -/
def sensorimotor.init (id : ℕ) : sensorimotor where
  motor_id        := id
  com             := ⟨[], 0⟩
  do_request      := true
  is_responding   := false
  direction       := 1
  data            := interface_data.init
  err_int         := 0
  z               := 0
  target_position := 0
  target_voltage  := 0
  target_csl_mode := 0
  target_csl_fb   := 1.03
  limit_lo        := -0.8
  limit_hi        := 0.8
  Kp              := 0.8
  phi_disable     := 0.9
  syncstate       := command_state_t.sync0
  statistics      := Statistics_t.init
  controller      := Controller_t.none

/-- Source `disable`. -/
def disable (s : sensorimotor) : sensorimotor := { s with controller := Controller_t.none }

/-- Source `set_target_voltage`: writes both the target and
`data.output_voltage`. -/
def set_target_voltage (v : ℚ) (s : sensorimotor) : sensorimotor :=
  { s with target_voltage := v, data := { s.data with output_voltage := v } }

/-- The safety cutoff at the top of `execute_controller`:
`if (std::abs(phi) >= phi_disable) disable();`. -/
def safety_cutoff (s : sensorimotor) : sensorimotor :=
  if |s.data.position| ≥ s.phi_disable then disable s else s

/-- The `controller == position` branch of `execute_controller`, together
with its `else` branch which zeroes the integral accumulator. -/
def position_branch (s : sensorimotor) : sensorimotor :=
  if s.controller = Controller_t.position then
    set_target_voltage (s.Kp * (s.target_position - s.data.position))
      { s with err_int := clip (s.err_int + (s.target_position - s.data.position)) 1 }
  else
    { s with err_int := 0 }

/-- The local `gi` of `execute_controller`:
`posneg(clip(target_csl_mode), 2.4, 16.0)`. -/
def csl_gi (s : sensorimotor) : ℚ := posneg (clip s.target_csl_mode 1) 2.4 16.0

/-- The local `gf` of `execute_controller`: `target_csl_fb * pos(mode)`. -/
def csl_gf (s : sensorimotor) : ℚ := s.target_csl_fb * pos (clip s.target_csl_mode 1)

/-- The local `z` of the csl branch after its first, clamp-from-above step:
`if (phi > limit_hi) z = std::min(z, gi * phi);`. -/
def csl_z1 (phi : ℚ) (s : sensorimotor) : ℚ :=
  if phi > s.limit_hi then min s.z (csl_gi s * phi) else s.z

/-- The local `z` of the csl branch after its second, clamp-from-below step:
`if (phi < limit_lo) z = std::max(z, gi * phi);`. -/
def csl_z2 (phi : ℚ) (s : sensorimotor) : ℚ :=
  if phi < s.limit_lo then max (csl_z1 phi s) (csl_gi s * phi) else csl_z1 phi s

/-- The local `u` of the csl branch: `clip(-gi * phi + z)`. -/
def csl_u (phi : ℚ) (s : sensorimotor) : ℚ := clip (-(csl_gi s) * phi + csl_z2 phi s) 1

/-- The csl part of `execute_controller`, including the gain computations
that precede the branch; `phi` is the position read at the top of the
function (the earlier branches never modify `data.position`), and the
branch's local variables are the `csl_*` definitions above. -/
def csl_branch (phi : ℚ) (s : sensorimotor) : sensorimotor :=
  if s.controller = Controller_t.csl then
    set_target_voltage (0.75 * csl_u phi s)
      { s with z := csl_gi s * phi + csl_gf s * csl_u phi s }
  else
    { s with z := csl_gi s * phi }

/-- Source `execute_controller`: safety cutoff first, then the
position branch, then the csl branch. -/
def execute_controller (s : sensorimotor) : sensorimotor :=
  csl_branch s.data.position (position_branch (safety_cutoff s))

/-- Modelled from the spec: `enqueue_checksum()` of the channel appends one
checksum byte computed over every byte after the sync pair; the additive
two's-complement choice makes the accumulated frame sum vanish mod 256,
consistently with the decode path. -/
def checksum_byte (payload : List ℕ) : ℕ := (256 - payload.sum % 256) % 256

/-- The PWM magnitude byte of `enqueue_command_set_voltage`:
`static_cast<uint8_t>(round(std::abs(voltage) * 255))` applied to the
direction-corrected clamped voltage (the cast is modelled mod 256). -/
def pwm_byte (v : ℚ) : ℕ := (round (|v| * 255)).toNat % 256

/-- Source `enqueue_command_set_voltage`, as the list of bytes
placed on the channel (`enqueue_sync_bytes(0xFF)` enqueues the two sync
bytes, per the spec's frame layout). -/
def enqueue_command_set_voltage (motor_id : ℕ) (direction : ℤ) (voltage : ℚ) : List ℕ :=
  let v := clip voltage 0.5 * (direction : ℚ)
  let cmd : ℕ := if 0 ≤ v then 0xB0 else 0xB1
  [0xFF, 0xFF, cmd, motor_id, pwm_byte v, checksum_byte [cmd, motor_id, pwm_byte v]]

/-- Source `receive_data`: one invocation of the byte-wise parser
state machine.  Returns the updated device and the C++ return code (`true`
= continue processing, `false` = wait for the next byte).  The channel
operations are modelled from the spec: `pop` drops a byte without touching
the checksum accumulator, `get_byte`/`get_word` consume bytes and add them
to the accumulator, `reset_checksum` zeroes it on the sync0 → sync1
transition (the sync bytes themselves are outside the checksum coverage),
and `is_checksum_ok` holds iff the accumulated sum, trailing checksum byte
included, is 0 mod 256. -/
def receive_data (s : sensorimotor) : sensorimotor × Bool :=
  match s.syncstate, s.com.queue with
  | command_state_t.sync0, [] => (s, false)
  | command_state_t.sync0, b :: rest =>
    if b = 0xFF then
      ({ s with syncstate := command_state_t.sync1, com := ⟨rest, 0⟩ }, true)
    else
      ({ s with com := ⟨rest, s.com.chk⟩ }, true)
  | command_state_t.sync1, [] => (s, false)
  | command_state_t.sync1, b :: rest =>
    if b = 0xFF then
      ({ s with syncstate := command_state_t.processing, com := ⟨rest, s.com.chk⟩ }, true)
    else
      ({ s with syncstate := command_state_t.sync0, com := ⟨rest, s.com.chk⟩ }, true)
  | command_state_t.processing, [] => (s, false)
  | command_state_t.processing, cmd :: tail =>
    if cmd = 0x80 then
      match tail with
      | mid :: p1 :: p2 :: c1 :: c2 :: b1 :: b2 :: v1 :: v2 :: t1 :: t2 :: k :: rest =>
        if mid = s.motor_id then
          let chk := s.com.chk + cmd + mid + p1 + p2 + c1 + c2 + b1 + b2 + v1 + v2 + t1 + t2 + k
          ({ s with
              data := { s.data with
                position        := uint_to_sc (p1 * 256 + p2) * (s.direction : ℚ)
                current         := ((c1 * 256 + c2 : ℕ) : ℚ) * current_scale
                voltage_backemf := uint_to_sc (b1 * 256 + b2)
                voltage_supply  := ((v1 * 256 + v2 : ℕ) : ℚ) * voltage_scale
                temperature     := (int16_of_uint16 (t1 * 256 + t2) : ℚ) / 100 }
              com := ⟨rest, chk⟩
              syncstate :=
                if s.motor_id = mid ∧ chk % 256 = 0 then command_state_t.completed
                else command_state_t.invalid }, true)
        else
          ({ s with
              com := ⟨p1 :: p2 :: c1 :: c2 :: b1 :: b2 :: v1 :: v2 :: t1 :: t2 :: k :: rest,
                      s.com.chk + cmd + mid⟩
              syncstate := command_state_t.invalid }, true)
      | _ => (s, false)
    else if cmd = 0xE1 then
      match tail with
      | mid :: k :: rest =>
        let chk := s.com.chk + cmd + mid + k
        let stt : command_state_t :=
          if s.motor_id = mid ∧ chk % 256 = 0 then command_state_t.completed
          else command_state_t.invalid
        ({ s with
            com := ⟨rest, chk⟩
            syncstate := stt
            is_responding := decide (stt = command_state_t.completed) }, true)
      | _ => (s, false)
    else
      ({ s with syncstate := command_state_t.invalid }, false)
  | command_state_t.completed, _ => (s, false)
  | command_state_t.invalid, _ => (s, false)

/-- The inner loop `while (receive_data());` of `receive_response`, with
explicit fuel; every `true` return consumes at least one byte, so
`queue.length + 1` units of fuel always reach quiescence. -/
def runF : ℕ → sensorimotor → sensorimotor
  | 0, s => s
  | n + 1, s =>
    match receive_data s with
    | (s1, true) => runF n s1
    | (s1, false) => s1

/-- Run the parser to quiescence on the currently available bytes. -/
def run (s : sensorimotor) : sensorimotor := runF (s.com.queue.length + 1) s

/-- New inbound bytes arriving on the channel (appended to the readable
queue, checksum accumulator untouched). -/
def enq (r : List ℕ) (s : sensorimotor) : sensorimotor :=
  { s with com := ⟨s.com.queue ++ r, s.com.chk⟩ }

/-- One receive cycle of `receive_response` (timing and statistics aside):
reset the parser to `sync0`, then process the available bytes to
quiescence. -/
def receive_cycle (s : sensorimotor) : sensorimotor :=
  run { s with syncstate := command_state_t.sync0 }

/-- One polling step of the receive loop: either one new byte has arrived
(feed it and let the parser run) or the parser is re-invoked with no new
byte available. -/
def feedOpt (s : sensorimotor) (o : Option ℕ) : sensorimotor :=
  match o with
  | some b => run (enq [b] s)
  | none => run s

/-! Formulas of the specification's claims about the csl branch, in the
claims' own wording (`gi` with a sign case split, `gf` with `max 0`, the
two-sided clamp applied to `z`, `u` clamped with bound `1.0`); the theorems
below compare `execute_controller` against them. -/

/-- The csl gain `gi` as the claims state it. -/
def gi_claim (s : sensorimotor) : ℚ :=
  if 0 ≤ clip s.target_csl_mode 1 then 2.4 * clip s.target_csl_mode 1
  else 16.0 * clip s.target_csl_mode 1

/-- The csl feedback gain `gf` as the claims state it. -/
def gf_claim (s : sensorimotor) : ℚ := s.target_csl_fb * max 0 (clip s.target_csl_mode 1)

/-- The internal state `z` after the two one-sided clamps, as the claims
state it. -/
def z_clamped_claim (s : sensorimotor) : ℚ :=
  let z1 := if s.data.position > s.limit_hi then min s.z (gi_claim s * s.data.position)
            else s.z
  if s.data.position < s.limit_lo then max z1 (gi_claim s * s.data.position) else z1

/-- The csl control value `u` as the claims state it. -/
def u_claim (s : sensorimotor) : ℚ :=
  clip (-(gi_claim s) * s.data.position + z_clamped_claim s) 1

/-! Concrete device states used as counterexamples and failing inputs. -/

/-- A device in position mode whose accumulated integral error (0.9) lies
between the configured limit `limit_hi = 0.8` and the generic clamp's
default bound `1.0`. -/
def C2state : sensorimotor :=
  { sensorimotor.init 0 with
      controller := Controller_t.position
      target_position := 0.9 }

/-- A device in csl mode with a negative feedback gain, held strictly above
`limit_hi` but below the safety threshold. -/
def C6state : sensorimotor :=
  { sensorimotor.init 0 with
      controller := Controller_t.csl
      target_csl_mode := 1
      target_csl_fb := -1
      data := { interface_data.init with position := 0.85 } }

/-- A device in voltage mode whose position magnitude 0.95 exceeds the
safety threshold `phi_disable = 0.9`. -/
def C4state : sensorimotor :=
  { sensorimotor.init 0 with
      controller := Controller_t.voltage
      data := { interface_data.init with position := 0.95 } }

/-- A device in csl mode, inside the safe band, with mode gain 1. -/
def C5state : sensorimotor :=
  { sensorimotor.init 0 with
      controller := Controller_t.csl
      target_csl_mode := 1
      data := { interface_data.init with position := 0.3 } }

/-- A device in csl mode held above `limit_hi`, with the default
(nonnegative) feedback gain. -/
def C6witstate : sensorimotor :=
  { sensorimotor.init 0 with
      controller := Controller_t.csl
      target_csl_mode := 1
      data := { interface_data.init with position := 0.85 } }

/-- A device (id 5) whose channel holds a full-length state-data frame with
a matching motor id, a position word 0x0300, and a checksum byte 0 that
fails validation (the correct byte would be 171). -/
def C1state : sensorimotor :=
  { sensorimotor.init 5 with
      com := ⟨[0xFF, 0xFF, 0x80, 0x05, 3, 0, 0, 0x64, 2, 0, 0, 0x32, 0x27, 0x10, 0], 0⟩ }

/-- A valid ping-response frame for motor id 5 (post-sync sum
`0xE1 + 0x05 + 26 = 256` vanishes mod 256). -/
def C7bytes : List ℕ := [0xFF, 0xFF, 0xE1, 0x05, 26]

/-- The bytes of `C7bytes` delivered one at a time, with idle parser calls
(no new byte available) interspersed. -/
def C7sched : List (Option ℕ) :=
  [some 0xFF, Option.none, some 0xFF, some 0xE1, Option.none, Option.none,
   some 0x05, some 26, Option.none]


/-! ## Helper lemmas -/

lemma posneg_eq_ite (v p n : ℚ) : posneg v p n = if 0 ≤ v then p * v else n * v := by
  unfold posneg pos neg
  rcases le_or_lt 0 v with h | h
  · rw [max_eq_right h, min_eq_left h, if_pos h]
    ring
  · rw [max_eq_left h.le, min_eq_right h.le, if_neg (not_le.mpr h)]
    ring

lemma clip_le_bound (x b : ℚ) (hb : 0 ≤ b) : clip x b ≤ b := by
  unfold clip
  exact max_le (by linarith) (min_le_left _ _)

lemma neg_bound_le_clip (x b : ℚ) : -b ≤ clip x b := le_max_left _ _

lemma abs_clip_le (x b : ℚ) (hb : 0 ≤ b) : |clip x b| ≤ b :=
  abs_le.mpr ⟨neg_bound_le_clip x b, clip_le_bound x b hb⟩

lemma clip_nonpos (x : ℚ) (hx : x ≤ 0) : clip x 1 ≤ 0 := by
  unfold clip
  exact max_le (by norm_num) ((min_le_right _ _).trans hx)

lemma sc_fields (s : sensorimotor) :
    (safety_cutoff s).data = s.data ∧
    (safety_cutoff s).phi_disable = s.phi_disable ∧
    (safety_cutoff s).limit_lo = s.limit_lo ∧
    (safety_cutoff s).limit_hi = s.limit_hi ∧
    (safety_cutoff s).target_csl_mode = s.target_csl_mode ∧
    (safety_cutoff s).target_csl_fb = s.target_csl_fb ∧
    (safety_cutoff s).Kp = s.Kp ∧
    (safety_cutoff s).target_position = s.target_position ∧
    (safety_cutoff s).err_int = s.err_int ∧
    (safety_cutoff s).z = s.z := by
  unfold safety_cutoff disable
  split_ifs <;> exact ⟨rfl, rfl, rfl, rfl, rfl, rfl, rfl, rfl, rfl, rfl⟩

lemma pb_fields (s : sensorimotor) :
    (position_branch s).data.position = s.data.position ∧
    (position_branch s).phi_disable = s.phi_disable ∧
    (position_branch s).limit_lo = s.limit_lo ∧
    (position_branch s).limit_hi = s.limit_hi ∧
    (position_branch s).target_csl_mode = s.target_csl_mode ∧
    (position_branch s).target_csl_fb = s.target_csl_fb ∧
    (position_branch s).Kp = s.Kp ∧
    (position_branch s).target_position = s.target_position ∧
    (position_branch s).z = s.z ∧
    (position_branch s).controller = s.controller := by
  unfold position_branch set_target_voltage
  split_ifs <;> exact ⟨rfl, rfl, rfl, rfl, rfl, rfl, rfl, rfl, rfl, rfl⟩

lemma cb_fields (phi : ℚ) (s : sensorimotor) :
    (csl_branch phi s).data.position = s.data.position ∧
    (csl_branch phi s).phi_disable = s.phi_disable ∧
    (csl_branch phi s).limit_lo = s.limit_lo ∧
    (csl_branch phi s).limit_hi = s.limit_hi ∧
    (csl_branch phi s).target_csl_mode = s.target_csl_mode ∧
    (csl_branch phi s).target_csl_fb = s.target_csl_fb ∧
    (csl_branch phi s).Kp = s.Kp ∧
    (csl_branch phi s).target_position = s.target_position ∧
    (csl_branch phi s).err_int = s.err_int ∧
    (csl_branch phi s).controller = s.controller := by
  unfold csl_branch set_target_voltage
  split_ifs <;> exact ⟨rfl, rfl, rfl, rfl, rfl, rfl, rfl, rfl, rfl, rfl⟩

lemma sc_eq_self (s : sensorimotor) (h : |s.data.position| < s.phi_disable) :
    safety_cutoff s = s := by
  unfold safety_cutoff
  rw [if_neg (not_le.mpr h)]

lemma sc_controller_none (s : sensorimotor) (h : |s.data.position| ≥ s.phi_disable) :
    (safety_cutoff s).controller = Controller_t.none := by
  unfold safety_cutoff disable
  rw [if_pos h]

lemma pb_of_position (s : sensorimotor) (hc : s.controller = Controller_t.position) :
    position_branch s =
      set_target_voltage (s.Kp * (s.target_position - s.data.position))
        { s with err_int := clip (s.err_int + (s.target_position - s.data.position)) 1 } := by
  unfold position_branch
  rw [if_pos hc]

lemma pb_of_ne (s : sensorimotor) (hc : s.controller ≠ Controller_t.position) :
    position_branch s = { s with err_int := 0 } := by
  unfold position_branch
  rw [if_neg hc]

lemma cb_of_csl (phi : ℚ) (s : sensorimotor) (hc : s.controller = Controller_t.csl) :
    csl_branch phi s =
      set_target_voltage (0.75 * csl_u phi s)
        { s with z := csl_gi s * phi + csl_gf s * csl_u phi s } := by
  unfold csl_branch
  rw [if_pos hc]

lemma cb_of_ne (phi : ℚ) (s : sensorimotor) (hc : s.controller ≠ Controller_t.csl) :
    csl_branch phi s = { s with z := csl_gi s * phi } := by
  unfold csl_branch
  rw [if_neg hc]

lemma csl_gi_pb (s : sensorimotor) : csl_gi (position_branch s) = csl_gi s := by
  unfold csl_gi
  rw [(pb_fields s).2.2.2.2.1]

lemma csl_gf_pb (s : sensorimotor) : csl_gf (position_branch s) = csl_gf s := by
  unfold csl_gf
  rw [(pb_fields s).2.2.2.2.1, (pb_fields s).2.2.2.2.2.1]

lemma csl_u_pb (phi : ℚ) (s : sensorimotor) :
    csl_u phi (position_branch s) = csl_u phi s := by
  unfold csl_u csl_z2 csl_z1
  rw [csl_gi_pb, (pb_fields s).2.2.2.1, (pb_fields s).2.2.1,
    (pb_fields s).2.2.2.2.2.2.2.2.1]

lemma gi_claim_eq (s : sensorimotor) : gi_claim s = csl_gi s := by
  unfold gi_claim csl_gi
  rw [posneg_eq_ite]

lemma gf_claim_eq (s : sensorimotor) : gf_claim s = csl_gf s := rfl

lemma u_claim_eq (s : sensorimotor) : u_claim s = csl_u s.data.position s := by
  unfold u_claim csl_u z_clamped_claim csl_z2 csl_z1
  rw [gi_claim_eq]

lemma ec_position (s : sensorimotor) :
    (execute_controller s).data.position = s.data.position := by
  rw [execute_controller, (cb_fields _ _).1, (pb_fields _).1, (sc_fields s).1]

lemma ec_phi_disable (s : sensorimotor) :
    (execute_controller s).phi_disable = s.phi_disable := by
  rw [execute_controller, (cb_fields _ _).2.1, (pb_fields _).2.1, (sc_fields s).2.1]

lemma ec_limit_hi (s : sensorimotor) :
    (execute_controller s).limit_hi = s.limit_hi := by
  rw [execute_controller, (cb_fields _ _).2.2.2.1, (pb_fields _).2.2.2.1,
    (sc_fields s).2.2.2.1]

lemma ec_csl_mode (s : sensorimotor) :
    (execute_controller s).target_csl_mode = s.target_csl_mode := by
  rw [execute_controller, (cb_fields _ _).2.2.2.2.1, (pb_fields _).2.2.2.2.1,
    (sc_fields s).2.2.2.2.1]

lemma ec_csl_fb (s : sensorimotor) :
    (execute_controller s).target_csl_fb = s.target_csl_fb := by
  rw [execute_controller, (cb_fields _ _).2.2.2.2.2.1, (pb_fields _).2.2.2.2.2.1,
    (sc_fields s).2.2.2.2.2.1]

lemma ec_controller_none (s : sensorimotor) (h : |s.data.position| ≥ s.phi_disable) :
    (execute_controller s).controller = Controller_t.none := by
  rw [execute_controller, (cb_fields _ _).2.2.2.2.2.2.2.2.2,
    (pb_fields _).2.2.2.2.2.2.2.2.2, sc_controller_none s h]

lemma ec_controller_eq (s : sensorimotor) (h : |s.data.position| < s.phi_disable) :
    (execute_controller s).controller = s.controller := by
  rw [execute_controller, (cb_fields _ _).2.2.2.2.2.2.2.2.2,
    (pb_fields _).2.2.2.2.2.2.2.2.2, sc_eq_self s h]

lemma csl_gi_congr (a b : sensorimotor) (h : a.target_csl_mode = b.target_csl_mode) :
    csl_gi a = csl_gi b := by
  unfold csl_gi
  rw [h]

/-- What one `execute_controller` invocation in csl mode (below the safety
threshold) does to `z`, `output_voltage` and `target_voltage`, in terms of
the source's local values. -/
lemma ec_csl_outputs (s : sensorimotor) (hφ : |s.data.position| < s.phi_disable)
    (hc : s.controller = Controller_t.csl) :
    (execute_controller s).z =
        csl_gi s * s.data.position + csl_gf s * csl_u s.data.position s ∧
    (execute_controller s).data.output_voltage = 0.75 * csl_u s.data.position s ∧
    (execute_controller s).target_voltage = 0.75 * csl_u s.data.position s := by
  rw [execute_controller, sc_eq_self s hφ]
  have hc1 : (position_branch s).controller = Controller_t.csl := by
    rw [(pb_fields s).2.2.2.2.2.2.2.2.2]
    exact hc
  rw [cb_of_csl _ _ hc1]
  refine ⟨?_, ?_, ?_⟩
  · show csl_gi (position_branch s) * s.data.position +
        csl_gf (position_branch s) * csl_u s.data.position (position_branch s) = _
    rw [csl_gi_pb, csl_gf_pb, csl_u_pb]
  · show 0.75 * csl_u s.data.position (position_branch s) = _
    rw [csl_u_pb]
  · show 0.75 * csl_u s.data.position (position_branch s) = _
    rw [csl_u_pb]

/-- In any mode other than csl, `z` is reset to `gi * position`. -/
lemma ec_notcsl_z (s : sensorimotor) (hφ : |s.data.position| < s.phi_disable)
    (hc : s.controller ≠ Controller_t.csl) :
    (execute_controller s).z = csl_gi s * s.data.position := by
  rw [execute_controller, sc_eq_self s hφ]
  have hc1 : (position_branch s).controller ≠ Controller_t.csl := by
    rw [(pb_fields s).2.2.2.2.2.2.2.2.2]
    exact hc
  rw [cb_of_ne _ _ hc1]
  show csl_gi (position_branch s) * s.data.position = csl_gi s * s.data.position
  rw [csl_gi_pb]

/-- One csl invocation keeps `z` at or below `gi * position` when the
position is above `limit_hi` and the feedback gain is nonnegative. -/
lemma ec_csl_z_le (s : sensorimotor)
    (hc : s.controller = Controller_t.csl)
    (hhi : s.data.position > s.limit_hi)
    (hφ : |s.data.position| < s.phi_disable)
    (hfb : 0 ≤ s.target_csl_fb) :
    (execute_controller s).z ≤ csl_gi s * s.data.position := by
  rw [(ec_csl_outputs s hφ hc).1]
  have hz2 : csl_z2 s.data.position s ≤ csl_gi s * s.data.position := by
    unfold csl_z2 csl_z1
    rw [if_pos hhi]
    split_ifs with h2
    · exact max_le (min_le_right _ _) le_rfl
    · exact min_le_right _ _
  have hu : csl_u s.data.position s ≤ 0 := by
    unfold csl_u
    exact clip_nonpos _ (by linarith)
  have hgf : 0 ≤ csl_gf s := by
    unfold csl_gf pos
    exact mul_nonneg hfb (le_max_left _ _)
  nlinarith [mul_nonneg hgf (neg_nonneg.mpr hu)]

/-- Fields `execute_controller` can never change, across an arbitrary number
of invocations; the controller mode is also preserved while the position
stays inside the safety band. -/
lemma ec_iter_inv (s : sensorimotor) (hφ : |s.data.position| < s.phi_disable) (n : ℕ) :
    ((execute_controller)^[n] s).data.position = s.data.position ∧
    ((execute_controller)^[n] s).phi_disable = s.phi_disable ∧
    ((execute_controller)^[n] s).limit_hi = s.limit_hi ∧
    ((execute_controller)^[n] s).target_csl_mode = s.target_csl_mode ∧
    ((execute_controller)^[n] s).target_csl_fb = s.target_csl_fb ∧
    ((execute_controller)^[n] s).controller = s.controller := by
  induction n with
  | zero => exact ⟨rfl, rfl, rfl, rfl, rfl, rfl⟩
  | succ k ih =>
    obtain ⟨h1, h2, h3, h4, h5, h6⟩ := ih
    rw [Function.iterate_succ_apply']
    exact ⟨by rw [ec_position, h1], by rw [ec_phi_disable, h2], by rw [ec_limit_hi, h3],
      by rw [ec_csl_mode, h4], by rw [ec_csl_fb, h5],
      by rw [ec_controller_eq _ (by rw [h1, h2]; exact hφ), h6]⟩

lemma round_le_round (a b : ℚ) (h : a ≤ b) : round a ≤ round b := by
  rw [round_eq, round_eq]
  exact Int.floor_le_floor (by linarith)

lemma pwm_toNat_le (v : ℚ) (d : ℤ) (hdir : d = 1 ∨ d = -1) :
    (round (|clip v 0.5 * (d : ℚ)| * 255)).toNat ≤ 128 := by
  have habs : |clip v 0.5 * (d : ℚ)| = |clip v 0.5| := by
    rcases hdir with h | h <;> subst h <;> push_cast <;> simp [abs_mul]
  have h2 : |clip v 0.5 * (d : ℚ)| * 255 ≤ 255 / 2 := by
    rw [habs]
    have h1 : |clip v 0.5| ≤ 0.5 := abs_clip_le v 0.5 (by norm_num)
    have h0 : (0.5 : ℚ) = 1 / 2 := by norm_num
    nlinarith [abs_nonneg (clip v 0.5), h0 ▸ h1]
  have h128 : round ((255 : ℚ) / 2) = 128 := by norm_num [round_eq]
  have h3 : round (|clip v 0.5 * (d : ℚ)| * 255) ≤ 128 := by
    have := round_le_round _ _ h2
    rw [h128] at this
    exact this
  exact Int.toNat_le.mpr (by exact_mod_cast h3)

/-! ## Parser step lemmas -/

lemma receive_data_true_length (s s1 : sensorimotor)
    (h : receive_data s = (s1, true)) :
    s1.com.queue.length < s.com.queue.length := by
  unfold receive_data at h
  repeat' split at h
  all_goals simp_all
  all_goals (rw [← h]; simp)
  all_goals omega

lemma receive_data_of_invalid (s : sensorimotor)
    (h : s.syncstate = command_state_t.invalid) :
    receive_data s = (s, false) := by
  unfold receive_data
  split <;> simp_all

lemma receive_data_false_cases (s s1 : sensorimotor) (h : receive_data s = (s1, false)) :
    s1 = s ∨ (s.syncstate = command_state_t.processing ∧
      ∃ cmd tail, s.com.queue = cmd :: tail ∧ cmd ≠ 0x80 ∧ cmd ≠ 0xE1 ∧
        s1 = { s with syncstate := command_state_t.invalid }) := by
  unfold receive_data at h
  repeat' split at h
  all_goals simp_all

lemma receive_data_unknown_enq (s : sensorimotor) (cmd : ℕ) (tail r : List ℕ)
    (h1 : s.syncstate = command_state_t.processing)
    (hq : s.com.queue = cmd :: tail) (h80 : cmd ≠ 0x80) (hE1 : cmd ≠ 0xE1) :
    receive_data (enq r s) =
      (enq r { s with syncstate := command_state_t.invalid }, false) := by
  unfold receive_data enq
  simp_all

lemma receive_data_enq (s s1 : sensorimotor) (r : List ℕ)
    (h : receive_data s = (s1, true)) :
    receive_data (enq r s) = (enq r s1, true) := by
  unfold receive_data at h ⊢
  unfold enq
  repeat' split at h
  all_goals simp_all
  all_goals rw [← h]
  all_goals simp_all

/-! ## Quiescence of the receive loop -/

lemma runF_of_false (n : ℕ) (s s1 : sensorimotor) (h : receive_data s = (s1, false)) :
    runF (n + 1) s = s1 := by
  unfold runF
  rw [h]

lemma runF_fuel_irrel : ∀ n m (s : sensorimotor), s.com.queue.length < n →
    s.com.queue.length < m → runF n s = runF m s := by
  intro n
  induction n with
  | zero => omega
  | succ k ih =>
    intro m s hn hm
    obtain ⟨j, rfl⟩ : ∃ j, m = j + 1 := ⟨m - 1, by omega⟩
    show runF (k + 1) s = runF (j + 1) s
    unfold runF
    cases hr : receive_data s with
    | mk s1 b =>
      cases b
      · rfl
      · have hlen := receive_data_true_length s s1 hr
        exact ih j s1 (by omega) (by omega)

lemma run_eq_runF (s : sensorimotor) (n : ℕ) (h : s.com.queue.length < n) :
    run s = runF n s :=
  runF_fuel_irrel _ _ s (by omega) h

lemma run_of_false (s s1 : sensorimotor) (h : receive_data s = (s1, false)) :
    run s = s1 :=
  runF_of_false _ s s1 h

lemma run_of_true (s s1 : sensorimotor) (h : receive_data s = (s1, true)) :
    run s = run s1 := by
  have hlen := receive_data_true_length s s1 h
  show runF (s.com.queue.length + 1) s = run s1
  unfold runF
  rw [h]
  exact (run_eq_runF s1 s.com.queue.length hlen).symm

lemma receive_data_false_stuck (s s1 : sensorimotor)
    (h : receive_data s = (s1, false)) : receive_data s1 = (s1, false) := by
  rcases receive_data_false_cases s s1 h with rfl | ⟨h1, cmd, tail, hq, h80, hE1, rfl⟩
  · exact h
  · exact receive_data_of_invalid _ rfl

lemma run_stuck (s : sensorimotor) : receive_data (run s) = (run s, false) := by
  suffices hh : ∀ n (s : sensorimotor), s.com.queue.length < n →
      receive_data (runF n s) = (runF n s, false) by
    exact hh (s.com.queue.length + 1) s (by omega)
  intro n
  induction n with
  | zero => omega
  | succ k ih =>
    intro t ht
    unfold runF
    cases hr : receive_data t with
    | mk t1 b =>
      cases b
      · exact receive_data_false_stuck t t1 hr
      · have hlen := receive_data_true_length t t1 hr
        exact ih t1 (by omega)

lemma run_idem (s : sensorimotor) : run (run s) = run s :=
  run_of_false _ _ (run_stuck s)

lemma enq_nil (s : sensorimotor) : enq [] s = s := by
  simp [enq]

lemma enq_enq (r1 r2 : List ℕ) (s : sensorimotor) :
    enq r2 (enq r1 s) = enq (r1 ++ r2) s := by
  simp [enq]

/-- Letting the parser run to quiescence, then appending bytes and running
again, reaches the same state as appending the bytes up front. -/
lemma run_enq_run (r : List ℕ) (s : sensorimotor) :
    run (enq r (run s)) = run (enq r s) := by
  suffices hh : ∀ n (s : sensorimotor), s.com.queue.length < n →
      run (enq r (run s)) = run (enq r s) by
    exact hh (s.com.queue.length + 1) s (by omega)
  intro n
  induction n with
  | zero => omega
  | succ k ih =>
    intro t ht
    cases hr : receive_data t with
    | mk t1 b =>
      cases b
      · rcases receive_data_false_cases t t1 hr with heq | ⟨h1, cmd, tail, hq, h80, hE1, heq⟩
        · rw [run_of_false t t1 hr, heq]
        · subst heq
          have hinv : (enq r { t with syncstate := command_state_t.invalid }).syncstate =
              command_state_t.invalid := rfl
          rw [run_of_false t _ hr,
            run_of_false _ _ (receive_data_of_invalid _ hinv),
            run_of_false _ _ (receive_data_unknown_enq t cmd tail r h1 hq h80 hE1)]
      · have hlen := receive_data_true_length t t1 hr
        rw [run_of_true t t1 hr, run_of_true _ _ (receive_data_enq t t1 r hr)]
        exact ih t1 (by omega)

/-- Incremental polling (bytes delivered one at a time, idle polls allowed)
reaches the same state as processing all bytes in one go. -/
lemma foldl_feed (sched : List (Option ℕ)) : ∀ s : sensorimotor,
    sched.foldl feedOpt (run s) = run (enq (sched.filterMap id) s) := by
  induction sched with
  | nil =>
    intro s
    simp [enq_nil]
  | cons o rest ih =>
    intro s
    cases o with
    | none =>
      show rest.foldl feedOpt (feedOpt (run s) Option.none) = _
      rw [show feedOpt (run s) Option.none = run (run s) from rfl, run_idem, ih s]
      rfl
    | some b =>
      show rest.foldl feedOpt (feedOpt (run s) (some b)) = _
      rw [show feedOpt (run s) (some b) = run (enq [b] (run s)) from rfl,
        run_enq_run [b] s, ih (enq [b] s), enq_enq]
      rfl

/-! ## The claims -/

/-- C1: the claim says a receive cycle that does not reach `completed`
(timeout, bad checksum, wrong id, unknown command) leaves the Device State
fields unchanged.  The code violates this: on a full-length state-data
frame with a matching motor id but a failing checksum, `receive_data`
writes the decoded values into `data` before checking the checksum and
only then resolves to `invalid`.  At the concrete frame held by `C1state`
(id matches, checksum byte wrong), the cycle ends `invalid` yet
`data.position` has changed. -/
theorem C1_state_mutated_on_bad_checksum :
    (receive_cycle C1state).syncstate = command_state_t.invalid ∧
    (receive_cycle C1state).data.position ≠ C1state.data.position := by
  norm_num [C1state, receive_cycle, run, runF, receive_data, sensorimotor.init,
    interface_data.init, Statistics_t.init, uint_to_sc, int16_of_uint16,
    current_scale, voltage_scale]

/-- C2 (counterexample): the original claim says the integral accumulator is
clamped to `[limit_lo, limit_hi]`.  At `C2state` (limits ±0.8, accumulated
error 0.9) the code instead leaves `err_int = 0.9`, the clamp having used
the generic bound 1.0. -/
theorem C2_counterexample :
    ¬ ((execute_controller C2state).err_int =
        max C2state.limit_lo (min C2state.limit_hi
          (C2state.err_int + (C2state.target_position - C2state.data.position)))) := by
  rw [execute_controller,
    sc_eq_self _ (by norm_num [C2state, sensorimotor.init, interface_data.init])]
  have h1 : (position_branch C2state).controller ≠ Controller_t.csl := by
    rw [(pb_fields _).2.2.2.2.2.2.2.2.2]
    decide
  rw [cb_of_ne _ _ h1, pb_of_position _ (by decide)]
  show ¬ (clip (C2state.err_int + (C2state.target_position - C2state.data.position)) 1 =
      max C2state.limit_lo (min C2state.limit_hi
        (C2state.err_int + (C2state.target_position - C2state.data.position))))
  norm_num [C2state, sensorimotor.init, interface_data.init, clip, min_def, max_def]

/-- C2 (amended): in position mode (inside the safety band) the commanded
`output_voltage` is exactly `Kp * (target_position - position)`; the
integral accumulator is incremented by the error and clamped to [-1, +1]
(the generic clamp's default bound, not `[limit_lo, limit_hi]`) and
contributes nothing to the output; in any other mode it is reset to 0. -/
theorem C2_position_law (s : sensorimotor) (hφ : |s.data.position| < s.phi_disable) :
    (s.controller = Controller_t.position →
      (execute_controller s).data.output_voltage =
          s.Kp * (s.target_position - s.data.position) ∧
      (execute_controller s).err_int =
          max (-1) (min 1 (s.err_int + (s.target_position - s.data.position)))) ∧
    (s.controller ≠ Controller_t.position → (execute_controller s).err_int = 0) := by
  constructor
  · intro hc
    rw [execute_controller, sc_eq_self s hφ]
    have h1 : (position_branch s).controller ≠ Controller_t.csl := by
      rw [(pb_fields s).2.2.2.2.2.2.2.2.2, hc]
      decide
    rw [cb_of_ne _ _ h1, pb_of_position s hc]
    exact ⟨rfl, rfl⟩
  · intro hc
    rw [execute_controller, sc_eq_self s hφ, pb_of_ne s hc,
      (cb_fields _ _).2.2.2.2.2.2.2.2.1]

/-- C2 (witness): the amended law evaluated at `C2state`. -/
theorem C2_witness :
    |C2state.data.position| < C2state.phi_disable ∧
    ((C2state.controller = Controller_t.position →
      (execute_controller C2state).data.output_voltage =
          C2state.Kp * (C2state.target_position - C2state.data.position) ∧
      (execute_controller C2state).err_int =
          max (-1) (min 1 (C2state.err_int +
            (C2state.target_position - C2state.data.position)))) ∧
    (C2state.controller ≠ Controller_t.position →
      (execute_controller C2state).err_int = 0)) :=
  ⟨by norm_num [C2state, sensorimotor.init, interface_data.init],
   C2_position_law C2state
     (by norm_num [C2state, sensorimotor.init, interface_data.init])⟩

/-- C3: an encoded set-voltage frame is the two sync bytes, the command
byte 0xB0 when the direction-corrected clamped voltage is nonnegative and
0xB1 otherwise, the motor id, one payload byte `round(|v| * 255)` of the
voltage clamped to ±0.5 and multiplied by the direction, and the checksum
byte. -/
theorem C3_set_voltage_frame (m : ℕ) (d : ℤ) (v : ℚ) (hdir : d = 1 ∨ d = -1) :
    enqueue_command_set_voltage m d v =
      [0xFF, 0xFF,
       if 0 ≤ clip v 0.5 * (d : ℚ) then 0xB0 else 0xB1,
       m,
       (round (|clip v 0.5 * (d : ℚ)| * 255)).toNat,
       checksum_byte [if 0 ≤ clip v 0.5 * (d : ℚ) then 0xB0 else 0xB1, m,
         (round (|clip v 0.5 * (d : ℚ)| * 255)).toNat]] := by
  have hlt : (round (|clip v 0.5 * (d : ℚ)| * 255)).toNat < 256 :=
    lt_of_le_of_lt (pwm_toNat_le v d hdir) (by norm_num)
  simp only [enqueue_command_set_voltage, pwm_byte]
  rw [Nat.mod_eq_of_lt hlt]

/-- C3 (witness): the frame layout evaluated at voltage 0.3, direction 1. -/
theorem C3_witness :
    ((1 : ℤ) = 1 ∨ (1 : ℤ) = -1) ∧
    enqueue_command_set_voltage 5 1 (3 / 10) =
      [0xFF, 0xFF,
       if 0 ≤ clip (3 / 10) 0.5 * ((1 : ℤ) : ℚ) then 0xB0 else 0xB1,
       5,
       (round (|clip (3 / 10) 0.5 * ((1 : ℤ) : ℚ)| * 255)).toNat,
       checksum_byte [if 0 ≤ clip (3 / 10) 0.5 * ((1 : ℤ) : ℚ) then 0xB0 else 0xB1, 5,
         (round (|clip (3 / 10) 0.5 * ((1 : ℤ) : ℚ)| * 255)).toNat]] :=
  ⟨Or.inl rfl, C3_set_voltage_frame 5 1 (3 / 10) (Or.inl rfl)⟩

/-- C4: whenever the position magnitude reaches `phi_disable`, the
controller mode is forced to `none` by the safety cutoff, and it stays
`none` on every further invocation of `execute_controller` (which never
changes the position, so the condition keeps holding and no branch of the
control law re-enables the mode). -/
theorem C4_safety_cutoff (s : sensorimotor) (n : ℕ)
    (h : |s.data.position| ≥ s.phi_disable) :
    ((execute_controller)^[n + 1] s).controller = Controller_t.none := by
  induction n with
  | zero => exact ec_controller_none s h
  | succ k ih =>
    rw [Function.iterate_succ_apply']
    rcases le_or_lt ((execute_controller)^[k + 1] s).phi_disable
        |((execute_controller)^[k + 1] s).data.position| with hh | hh
    · exact ec_controller_none _ hh
    · rw [ec_controller_eq _ hh]
      exact ih

/-- C4 (witness): the cutoff evaluated at `C4state` after two invocations. -/
theorem C4_witness :
    |C4state.data.position| ≥ C4state.phi_disable ∧
    ((execute_controller)^[1 + 1] C4state).controller = Controller_t.none :=
  ⟨by norm_num [C4state, sensorimotor.init, interface_data.init, abs_of_nonneg],
   C4_safety_cutoff C4state 1
     (by norm_num [C4state, sensorimotor.init, interface_data.init, abs_of_nonneg])⟩

/-- C5: in csl mode (inside the safety band), with `mode = clip(target_csl_mode)`,
`gi = 2.4*mode` for nonnegative mode and `16.0*mode` otherwise, and
`gf = target_csl_fb * max 0 mode`, the internal state `z` is clamped from
above by `gi*position` when the position exceeds `limit_hi` and from below
when it is under `limit_lo`; then `u = clip(-gi*position + z)` with bound 1,
`z` becomes `gi*position + gf*u`, and the commanded output voltage is
`0.75*u`.  In every other mode `z` is reset to `gi*position`. -/
theorem C5_csl_law (s : sensorimotor) (hφ : |s.data.position| < s.phi_disable) :
    (s.controller = Controller_t.csl →
      (execute_controller s).z =
          gi_claim s * s.data.position + gf_claim s * u_claim s ∧
      (execute_controller s).data.output_voltage = 0.75 * u_claim s) ∧
    (s.controller ≠ Controller_t.csl →
      (execute_controller s).z = gi_claim s * s.data.position) := by
  constructor
  · intro hc
    obtain ⟨h1, h2, h3⟩ := ec_csl_outputs s hφ hc
    exact ⟨by rw [h1, gi_claim_eq, gf_claim_eq, u_claim_eq],
      by rw [h2, u_claim_eq]⟩
  · intro hc
    rw [ec_notcsl_z s hφ hc, gi_claim_eq]

/-- C5 (witness): the csl law evaluated at `C5state`. -/
theorem C5_witness :
    |C5state.data.position| < C5state.phi_disable ∧
    ((C5state.controller = Controller_t.csl →
      (execute_controller C5state).z =
          gi_claim C5state * C5state.data.position +
            gf_claim C5state * u_claim C5state ∧
      (execute_controller C5state).data.output_voltage = 0.75 * u_claim C5state) ∧
    (C5state.controller ≠ Controller_t.csl →
      (execute_controller C5state).z = gi_claim C5state * C5state.data.position)) :=
  ⟨by norm_num [C5state, sensorimotor.init, interface_data.init, abs_of_nonneg],
   C5_csl_law C5state
     (by norm_num [C5state, sensorimotor.init, interface_data.init, abs_of_nonneg])⟩

/-- C6 (counterexample): the original claim has no hypothesis on the
feedback gain; at `C6state` (`target_csl_fb = -1`, position 0.85 above
`limit_hi = 0.8`) one csl invocation drives `z` to 3.04, strictly above
`gi*position = 2.04`. -/
theorem C6_counterexample :
    ¬ ((execute_controller C6state).z ≤ gi_claim C6state * C6state.data.position) := by
  rw [execute_controller,
    sc_eq_self _ (by norm_num [C6state, sensorimotor.init, interface_data.init,
      abs_of_nonneg])]
  have h1 : (position_branch C6state).controller = Controller_t.csl := by
    rw [(pb_fields _).2.2.2.2.2.2.2.2.2]
    decide
  rw [cb_of_csl _ _ h1]
  show ¬ (csl_gi (position_branch C6state) * C6state.data.position +
      csl_gf (position_branch C6state) *
        csl_u C6state.data.position (position_branch C6state) ≤
      gi_claim C6state * C6state.data.position)
  rw [csl_gi_pb, csl_gf_pb, csl_u_pb]
  norm_num [C6state, sensorimotor.init, interface_data.init, csl_gi, csl_gf, csl_u,
    csl_z2, csl_z1, clip, posneg, pos, neg, gi_claim, min_def, max_def]

/-- C6 (amended): provided the feedback gain `target_csl_fb` is nonnegative
(its default 1.03 is), with the position held strictly above `limit_hi`,
inside the safety band, and the controller in csl mode, every number of
repeated invocations leaves `z` at or below `gi*position`. -/
theorem C6_clamp_bound (s : sensorimotor) (n : ℕ)
    (hc : s.controller = Controller_t.csl)
    (hhi : s.data.position > s.limit_hi)
    (hφ : |s.data.position| < s.phi_disable)
    (hfb : 0 ≤ s.target_csl_fb) :
    ((execute_controller)^[n + 1] s).z ≤ gi_claim s * s.data.position := by
  obtain ⟨h1, h2, h3, h4, h5, h6⟩ := ec_iter_inv s hφ n
  rw [Function.iterate_succ_apply']
  have step := ec_csl_z_le ((execute_controller)^[n] s)
    (by rw [h6]; exact hc) (by rw [h1, h3]; exact hhi)
    (by rw [h1, h2]; exact hφ) (by rw [h5]; exact hfb)
  calc ((execute_controller) ((execute_controller)^[n] s)).z
      ≤ csl_gi ((execute_controller)^[n] s) * ((execute_controller)^[n] s).data.position :=
        step
    _ = gi_claim s * s.data.position := by
        rw [csl_gi_congr _ s h4, h1, gi_claim_eq]

/-- C6 (witness): the amended bound evaluated at `C6witstate` after two
invocations. -/
theorem C6_witness :
    (C6witstate.controller = Controller_t.csl ∧
     C6witstate.data.position > C6witstate.limit_hi ∧
     |C6witstate.data.position| < C6witstate.phi_disable ∧
     0 ≤ C6witstate.target_csl_fb) ∧
    ((execute_controller)^[1 + 1] C6witstate).z ≤
        gi_claim C6witstate * C6witstate.data.position :=
  ⟨⟨by decide,
    by norm_num [C6witstate, sensorimotor.init, interface_data.init],
    by norm_num [C6witstate, sensorimotor.init, interface_data.init, abs_of_nonneg],
    by norm_num [C6witstate, sensorimotor.init]⟩,
   C6_clamp_bound C6witstate 1 (by decide)
     (by norm_num [C6witstate, sensorimotor.init, interface_data.init])
     (by norm_num [C6witstate, sensorimotor.init, interface_data.init, abs_of_nonneg])
     (by norm_num [C6witstate, sensorimotor.init])⟩

/-- C7: feeding a frame's bytes to the parser one at a time, with
arbitrarily many interspersed parser calls in which no new byte is
available (each a no-op on a quiescent parser), yields the same terminal
parser state and the same decoded Device State as presenting all bytes at
once within one receive cycle. -/
theorem C7_partial_robustness (sched : List (Option ℕ)) (bytes : List ℕ)
    (s : sensorimotor) (hs : sched.filterMap id = bytes) (hq : s.com.queue = []) :
    (sched.foldl feedOpt (run s)).syncstate =
        (run { s with com := ⟨bytes, s.com.chk⟩ }).syncstate ∧
    (sched.foldl feedOpt (run s)).data =
        (run { s with com := ⟨bytes, s.com.chk⟩ }).data := by
  have h := foldl_feed sched s
  rw [hs] at h
  have henq : enq bytes s = { s with com := ⟨bytes, s.com.chk⟩ } := by
    simp [enq, hq]
  rw [henq] at h
  exact ⟨by rw [h], by rw [h]⟩

/-- C7 (witness): the byte-at-a-time schedule `C7sched` of the valid ping
frame `C7bytes` against the all-at-once run. -/
theorem C7_witness :
    (C7sched.filterMap id = C7bytes ∧ (sensorimotor.init 5).com.queue = []) ∧
    ((C7sched.foldl feedOpt (run (sensorimotor.init 5))).syncstate =
        (run { sensorimotor.init 5 with
                com := ⟨C7bytes, (sensorimotor.init 5).com.chk⟩ }).syncstate ∧
     (C7sched.foldl feedOpt (run (sensorimotor.init 5))).data =
        (run { sensorimotor.init 5 with
                com := ⟨C7bytes, (sensorimotor.init 5).com.chk⟩ }).data) :=
  ⟨⟨rfl, rfl⟩, C7_partial_robustness C7sched C7bytes (sensorimotor.init 5) rfl rfl⟩

/-- C8: the statistics update increments the error counter exactly when the
cycle decoded invalid data, the timeout counter exactly on a timeout, sets
`faulted` to their disjunction, stores the elapsed time, folds it into the
exponential moving average with weights 0.99/0.01, and raises the maximum
high-water mark. -/
theorem C8_statistics_update (st : Statistics_t) (t : ℕ) (timeout invalid : Bool) :
    (st.update t timeout invalid).errors =
        (if invalid then st.errors + 1 else st.errors) ∧
    (st.update t timeout invalid).timeouts =
        (if timeout then st.timeouts + 1 else st.timeouts) ∧
    (st.update t timeout invalid).faulted = (timeout || invalid) ∧
    (st.update t timeout invalid).response_time_us = t ∧
    (st.update t timeout invalid).avg_resp_time_us =
        0.99 * st.avg_resp_time_us + 0.01 * (t : ℚ) ∧
    (st.update t timeout invalid).max_resp_time_us = max st.max_resp_time_us t :=
  ⟨rfl, rfl, rfl, rfl, rfl, rfl⟩

/-- C9: in position or csl mode (inside the safety band) the control law
writes its command through `set_target_voltage`, overwriting the stored
`target_voltage` itself — with `Kp * error` in position mode and `0.75*u`
in csl mode — so afterwards `output_voltage` equals `target_voltage`. -/
theorem C9_writes_through_setter (s : sensorimotor)
    (hφ : |s.data.position| < s.phi_disable)
    (hc : s.controller = Controller_t.position ∨ s.controller = Controller_t.csl) :
    (execute_controller s).data.output_voltage = (execute_controller s).target_voltage ∧
    (s.controller = Controller_t.position →
      (execute_controller s).target_voltage =
        s.Kp * (s.target_position - s.data.position)) ∧
    (s.controller = Controller_t.csl →
      (execute_controller s).target_voltage = 0.75 * u_claim s) := by
  rcases hc with hc | hc
  · rw [execute_controller, sc_eq_self s hφ]
    have h1 : (position_branch s).controller ≠ Controller_t.csl := by
      rw [(pb_fields s).2.2.2.2.2.2.2.2.2, hc]
      decide
    rw [cb_of_ne _ _ h1, pb_of_position s hc]
    refine ⟨rfl, fun _ => rfl, fun hx => ?_⟩
    rw [hc] at hx
    cases hx
  · obtain ⟨h1, h2, h3⟩ := ec_csl_outputs s hφ hc
    refine ⟨by rw [h2, h3], fun hx => ?_, fun _ => by rw [h3, u_claim_eq]⟩
    rw [hc] at hx
    cases hx

/-- C9 (witness): the setter write-through evaluated at `C2state`. -/
theorem C9_witness :
    (|C2state.data.position| < C2state.phi_disable ∧
     (C2state.controller = Controller_t.position ∨
      C2state.controller = Controller_t.csl)) ∧
    ((execute_controller C2state).data.output_voltage =
        (execute_controller C2state).target_voltage ∧
    (C2state.controller = Controller_t.position →
      (execute_controller C2state).target_voltage =
        C2state.Kp * (C2state.target_position - C2state.data.position)) ∧
    (C2state.controller = Controller_t.csl →
      (execute_controller C2state).target_voltage = 0.75 * u_claim C2state)) :=
  ⟨⟨by norm_num [C2state, sensorimotor.init, interface_data.init], Or.inl (by decide)⟩,
   C9_writes_through_setter C2state
     (by norm_num [C2state, sensorimotor.init, interface_data.init])
     (Or.inl (by decide))⟩

/-- C10: for direction ±1 the PWM payload byte of a set-voltage frame never
exceeds 128: the voltage is clamped to magnitude 0.5 before the direction
correction and `round(0.5 * 255) = 128`. -/
theorem C10_pwm_bound (m : ℕ) (d : ℤ) (v : ℚ) (hdir : d = 1 ∨ d = -1) :
    (enqueue_command_set_voltage m d v).getD 4 0 = pwm_byte (clip v 0.5 * (d : ℚ)) ∧
    pwm_byte (clip v 0.5 * (d : ℚ)) ≤ 128 := by
  refine ⟨rfl, ?_⟩
  unfold pwm_byte
  exact le_trans (Nat.mod_le _ _) (pwm_toNat_le v d hdir)

/-- C10 (witness): the payload bound evaluated at voltage 1, direction -1
(the clamp saturates and the byte is exactly 128). -/
theorem C10_witness :
    ((-1 : ℤ) = 1 ∨ (-1 : ℤ) = -1) ∧
    ((enqueue_command_set_voltage 7 (-1) 1).getD 4 0 =
        pwm_byte (clip 1 0.5 * ((-1 : ℤ) : ℚ)) ∧
     pwm_byte (clip 1 0.5 * ((-1 : ℤ) : ℚ)) ≤ 128) :=
  ⟨Or.inr rfl, C10_pwm_bound 7 (-1) 1 (Or.inr rfl)⟩

end supreme
